import Mathlib

/-
Verification of the medkit core data model (documents, annotations,
attributes, document pipeline) against its natural-language specification.
The Python sources embedded here are src/medkit/core/annotation.py,
src/medkit/core/document.py and src/medkit/core/doc_pipeline.py; the
store and pipeline modules are not part of the sources and are modelled
from the specification, as their doc comments state.
-/

namespace Medkit

/-- Closed payload type standing in for the Python values stored in the
`value` and `metadata` fields (typed `Any` in the source). -/
inductive PyValue where
  | pyBool : Bool → PyValue
  | pyInt : Int → PyValue
  | pyStr : String → PyValue
  deriving DecidableEq

/-- Python exceptions raised by the embedded methods: `valueError` for the
`ValueError` raised on duplicate identities, `duplicateKey` for the
spec-modelled store failure, `attributeError` for a failed attribute
lookup. -/
inductive PyError where
  | valueError : PyError
  | duplicateKey : PyError
  | attributeError : PyError
  deriving DecidableEq

/-- First-match lookup in an association list (Python `d[k]` / `d.get(k)`). -/
def alookup {α : Type} : List (String × α) → String → Option α
  | [], _ => none
  | p :: rest, k => if p.1 = k then some p.2 else alookup rest k

/-- Update-or-append (Python `d[k] = v`): replaces the value at the first
occurrence of `k`, appends `(k, v)` when `k` is absent.  Preserves the
insertion order of keys, as Python dicts do. -/
def aset {α : Type} : List (String × α) → String → α → List (String × α)
  | [], k, v => [(k, v)]
  | p :: rest, k, v => if p.1 = k then (k, v) :: rest else p :: aset rest k v

/-- Embeds `Attribute` (src/medkit/core/annotation.py, lines 135-165). -/
structure Attribute where
  uid : String
  label : String
  value : Option PyValue
  metadata : List (String × PyValue)
  deriving DecidableEq

/-- The Python dict produced by `Attribute.to_dict` (fixed keys `uid`,
`label`, `value`, `metadata`), embedded as a record. -/
structure AttributeDict where
  uid : String
  label : String
  value : Option PyValue
  metadata : List (String × PyValue)
  deriving DecidableEq

/-- Embeds `Attribute.to_dict` (annotation.py, lines 167-173). -/
def Attribute.to_dict (a : Attribute) : AttributeDict :=
  ⟨a.uid, a.label, a.value, a.metadata⟩

/-- Embeds `Attribute.from_dict` (annotation.py, lines 175-190). -/
def Attribute.from_dict (d : AttributeDict) : Attribute :=
  ⟨d.uid, d.label, d.value, d.metadata⟩

/-- Embeds the state of the `Annotation` base class
(src/medkit/core/annotation.py): `keys` is a Python `set`, modelled as a
duplicate-free list; `_attrs_by_id` and `_attr_ids_by_label` are Python
dicts, modelled as insertion-ordered association lists. -/
structure Annotation where
  uid : String
  label : String
  keys : List String
  attrs_by_id : List (String × Attribute)
  attr_ids_by_label : List (String × List String)
  metadata : List (String × PyValue)
  deriving DecidableEq

/-- Embeds `Annotation.add_attr` (annotation.py, lines 53-81).  The result
pairs the raised exception (if any) with the state of `self` after the
call; the `ValueError` is raised before any mutation, so on failure the
state comes back unchanged. -/
def Annotation.add_attr (a : Annotation) (attr : Attribute) : Option PyError × Annotation :=
  if (alookup a.attrs_by_id attr.uid).isSome then
    (some PyError.valueError, a)
  else
    let a1 := { a with attrs_by_id := aset a.attrs_by_id attr.uid attr }
    let bucket := (alookup a1.attr_ids_by_label attr.label).getD []
    (none, { a1 with attr_ids_by_label := aset a1.attr_ids_by_label attr.label (bucket ++ [attr.uid]) })

/-- Embeds `Annotation.get_attrs` (annotation.py, lines 83-92):
`list(self._attrs_by_id.values())`, the dict preserving insertion order. -/
def Annotation.get_attrs (a : Annotation) : List Attribute :=
  a.attrs_by_id.map (fun p => p.2)

/-- Embeds `Annotation.add_key` (annotation.py, lines 109-110): `set.add`. -/
def Annotation.add_key (a : Annotation) (key : String) : Annotation :=
  { a with keys := if key ∈ a.keys then a.keys else a.keys ++ [key] }

/-- Embeds `Annotation.keep_keys` (annotation.py, lines 112-113):
`set.intersection_update`. -/
def Annotation.keep_keys (a : Annotation) (ks : List String) : Annotation :=
  { a with keys := a.keys.filter (fun k => decide (k ∈ ks)) }

/-- One iteration of the `for attr in attrs` loop of the constructor: once
an exception has been raised the remaining iterations never run. -/
def Annotation.initStep (st : Option PyError × Annotation) (attr : Attribute) :
    Option PyError × Annotation :=
  match st with
  | (some e, a) => (some e, a)
  | (none, a) => Annotation.add_attr a attr

/-- Embeds `Annotation.__init__` (annotation.py, lines 12-51) with explicit
`uid` (the source draws a fresh identifier when none is supplied):
initializes the two attribute indices empty and attaches each element of
`attrs` in list order through `add_attr`; an exception raised there aborts
the construction. -/
def Annotation.init (label : String) (keys : List String) (attrs : List Attribute)
    (uid : String) (metadata : List (String × PyValue)) : Option PyError × Annotation :=
  attrs.foldl Annotation.initStep (none, ⟨uid, label, keys, [], [], metadata⟩)

/-- Modelled from the spec: `medkit/core/store.py` (`Store`, `DictStore`) is
not under src/.  Spec section 4.2: a mapping from uid to stored item;
`store_data_item` inserts an item under its own uid, is idempotent when the
identical item is already present, and fails with DuplicateKey when a
different item occupies the uid; `get_data_item` is a pure lookup whose
miss is a normal absent result.  Only document-held items reach the store
through the embedded code paths, so stored items are of the record type
below. -/
structure DictStore where
  data_items : List (String × Annotation)
  deriving DecidableEq

/-- Modelled from the spec (section 4.2): pure lookup. -/
def DictStore.get_data_item (s : DictStore) (uid : String) : Option Annotation :=
  alookup s.data_items uid

/-- Modelled from the spec (section 4.2): insert under the item's own uid;
idempotent re-insert of the identical item; DuplicateKey on a conflicting
occupant, leaving the store unchanged. -/
def DictStore.store_data_item (s : DictStore) (item : Annotation) : Option PyError × DictStore :=
  match alookup s.data_items item.uid with
  | none => (none, ⟨s.data_items ++ [(item.uid, item)]⟩)
  | some existing =>
      if existing = item then (none, s) else (some PyError.duplicateKey, s)

/-- Embeds `Document` (src/medkit/core/document.py): `annotation_ids` is a
Python `set` of identifiers, modelled as a duplicate-free list that records
the order in which members were added (set iteration order is NOT that
order; see `Document.get_annotations`); the two indices are Python dicts. -/
structure Document where
  id : String
  store : DictStore
  annotation_ids : List String
  annotation_ids_by_label : List (String × List String)
  annotation_ids_by_key : List (String × List String)
  metadata : List (String × PyValue)
  deriving DecidableEq

/-- Embeds `Document.__init__` (document.py, lines 19-52) with explicit
`doc_id`; a missing `store` argument means a fresh private `DictStore`. -/
def Document.init (doc_id : String) (metadata : List (String × PyValue))
    (store : Option DictStore) : Document :=
  { id := doc_id, store := store.getD ⟨[]⟩, annotation_ids := [],
    annotation_ids_by_label := [], annotation_ids_by_key := [], metadata := metadata }

/-- The loop `for key in annotation.keys` of `Document.add_annotation`
(document.py, lines 83-86): create-if-missing then append, per key. -/
def Document.addToKeyBuckets (idx : List (String × List String)) (keys : List String)
    (uid : String) : List (String × List String) :=
  keys.foldl (fun d k => aset d k ((alookup d k).getD [] ++ [uid])) idx

/-- Attribute and method names defined on the `Annotation` class in the
source: the fields its `__init__` sets (annotation.py, lines 43-49) and the
methods of the class body.  No attribute named `id` is among them. -/
def annotationAttributeNames : List String :=
  ["uid", "label", "keys", "metadata", "_attrs_by_id", "_attr_ids_by_label",
   "add_attr", "get_attrs", "get_attrs_by_label", "add_key", "keep_keys",
   "to_dict", "from_dict"]

/-- Embeds `Document.add_annotation` (document.py, lines 54-86).  Its first
statement reads `annotation.id`; the `Annotation` class defines no
attribute or method of that name (its identifier field is `uid`), so
Python raises AttributeError there - before the duplicate check and before
any mutation.  As for `run_on_collection`, the failing attribute lookup is
modelled by consulting the class's attribute-name table.  The remainder of
the body, unreachable in the source, is embedded as written, with the
identifier read standing for the `uid` field: `ValueError` on a member uid
before any mutation, otherwise mutation in source statement order
(membership, store, label bucket, one key bucket per tag).  The pair
carries the raised exception together with the state of `self` after the
call. -/
def Document.add_annotation (doc : Document) (ann : Annotation) : Option PyError × Document :=
  if "id" ∈ annotationAttributeNames then
    if ann.uid ∈ doc.annotation_ids then
      (some PyError.valueError, doc)
    else
      let d1 := { doc with annotation_ids := doc.annotation_ids ++ [ann.uid] }
      match DictStore.store_data_item d1.store ann with
      | (some e, s) => (some e, { d1 with store := s })
      | (none, s) =>
          let d2 := { d1 with store := s }
          let lbucket := (alookup d2.annotation_ids_by_label ann.label).getD []
          let d3 := { d2 with
            annotation_ids_by_label := aset d2.annotation_ids_by_label ann.label (lbucket ++ [ann.uid]) }
          (none, { d3 with
            annotation_ids_by_key := Document.addToKeyBuckets d3.annotation_ids_by_key ann.keys ann.uid })
  else
    (some PyError.attributeError, doc)

/-- Embeds `Document.get_annotation_by_id` (document.py, lines 88-95):
membership filter first, store lookup only for members. -/
def Document.get_annotation_by_id (doc : Document) (uid : String) : Option Annotation :=
  if uid ∈ doc.annotation_ids then DictStore.get_data_item doc.store uid else none

/-- Embeds `Document.get_annotations` (document.py, lines 97-100).  The
source iterates the membership `set`; CPython enumerates a set of strings
in a hash-dependent order that is not, in general, the insertion order, so
the enumeration is an explicit argument `order`, which theorems constrain
to be a permutation of the membership. -/
def Document.get_annotations (doc : Document) (order : List String) : List (Option Annotation) :=
  order.map (fun u => DictStore.get_data_item doc.store u)

/-- Embeds `Document.get_annotations_by_key` (document.py, lines 102-108). -/
def Document.get_annotations_by_key (doc : Document) (key : String) : List (Option Annotation) :=
  ((alookup doc.annotation_ids_by_key key).getD []).map (fun u => DictStore.get_data_item doc.store u)

/-- Embeds `Document.get_annotations_by_label` (document.py, lines 110-116). -/
def Document.get_annotations_by_label (doc : Document) (label : String) : List (Option Annotation) :=
  ((alookup doc.annotation_ids_by_label label).getD []).map (fun u => DictStore.get_data_item doc.store u)

/-- Python aliasing made explicit: the store holds the very object the
caller mutates, so an in-place method call on a member annotation is
observed through the document as an update of the stored object under its
uid and nothing else. -/
def Document.mutate_ann (doc : Document) (uid : String) (f : Annotation → Annotation) : Document :=
  { doc with store := ⟨doc.store.data_items.map (fun p => if p.1 = uid then (p.1, f p.2) else p)⟩ }

/-- Embeds `Collection` (document.py, lines 126-134). -/
structure Collection where
  documents : List Document
  deriving DecidableEq

/-- Modelled from the spec: `medkit/core/pipeline.py` is not under src/.
Spec section 3: a PipelineStep wraps an operation together with its
declared input and output keys; only the key declarations matter to the
embedded claims, so the operation is an opaque description string. -/
structure PipelineStep where
  operation : String
  input_keys : List String
  output_keys : List String
  deriving DecidableEq

/-- Modelled from the spec (section 3): the Pipeline carries its ordered
steps, declared input and output keys, and the document bound by
`set_doc`. -/
structure Pipeline where
  steps : List PipelineStep
  input_keys : List String
  output_keys : List String
  doc : Option Document
  deriving DecidableEq

/-- Modelled from the spec (section 3): bind the active document. -/
def Pipeline.set_doc (p : Pipeline) (d : Document) : Pipeline :=
  { p with doc := some d }

/-- Embeds the state of `DocPipeline`
(src/medkit/core/doc_pipeline.py): `labels_by_input_key` is a Python dict,
modelled as an insertion-ordered association list with pairwise distinct
keys. -/
structure DocPipeline where
  pipeline : Pipeline
  labels_by_input_key : List (String × List String)
  deriving DecidableEq

/-- Embeds `DocPipeline.__init__` (doc_pipeline.py, lines 22-61): copies
the steps, declares the mapping's keys as pipeline input keys and an empty
output key list. -/
def DocPipeline.init (steps : List PipelineStep)
    (labels_by_input_key : List (String × List String)) : DocPipeline :=
  { pipeline :=
      { steps := steps.map (fun s => ⟨s.operation, s.input_keys, s.output_keys⟩),
        input_keys := labels_by_input_key.map (fun p => p.1),
        output_keys := [],
        doc := none },
    labels_by_input_key := labels_by_input_key }

/-- Embeds `DocPipeline.run_on_doc` (doc_pipeline.py, lines 63-83).  The
loop builds `all_input_anns`, a dict from input key to annotation list,
assigning the first label bucket and extending with each later one.  The
observable effect on the spec-modelled Pipeline is the bound document and
the positional arguments handed to `Pipeline.process`
(`all_input_anns.values()` in dict insertion order), returned here as a
pair. -/
def DocPipeline.gatherStep (doc : Document) (input_key : String)
    (acc : List (String × List (Option Annotation))) (label : String) :
    List (String × List (Option Annotation)) :=
  match alookup acc input_key with
  | none => acc ++ [(input_key, Document.get_annotations_by_label doc label)]
  | some cur => aset acc input_key (cur ++ Document.get_annotations_by_label doc label)

/-- The double loop of `run_on_doc` building the `all_input_anns` dict. -/
def DocPipeline.gather (doc : Document) (lbik : List (String × List String)) :
    List (String × List (Option Annotation)) :=
  lbik.foldl (fun acc kv => kv.2.foldl (DocPipeline.gatherStep doc kv.1) acc) []

def DocPipeline.run_on_doc (p : DocPipeline) (doc : Document) :
    Pipeline × List (List (Option Annotation)) :=
  (Pipeline.set_doc p.pipeline doc,
   (DocPipeline.gather doc p.labels_by_input_key).map (fun q => q.2))

/-- Method names defined on the `DocPipeline` class in the source. -/
def docPipelineMethodNames : List String :=
  ["__init__", "run_on_doc", "run_on_collection"]

/-- Embeds `DocPipeline.run_on_collection` (doc_pipeline.py, lines 85-96).
The source body is `for doc in collection.documents:
self.run_on_document(doc)`; Python resolves `self.run_on_document` by
attribute lookup on the class, which defines no method of that name, so the
lookup raises AttributeError.  Attribute lookup is modelled by consulting
the class's method-name table. -/
def DocPipeline.runOnCollectionLoop (p : DocPipeline) : List Document → Except PyError Unit
  | [] => Except.ok ()
  | doc :: rest =>
      if "run_on_document" ∈ docPipelineMethodNames then
        let _ := DocPipeline.run_on_doc p doc
        DocPipeline.runOnCollectionLoop p rest
      else Except.error PyError.attributeError

def DocPipeline.run_on_collection (p : DocPipeline) (c : Collection) : Except PyError Unit :=
  DocPipeline.runOnCollectionLoop p c.documents

/-! Association-list lemmas (the Python dict model). -/

theorem aset_absent {α : Type} {l : List (String × α)} {k : String} (v : α)
    (h : alookup l k = none) : aset l k v = l ++ [(k, v)] := by
  induction l with
  | nil => simp [aset]
  | cons p rest ih =>
      by_cases hp : p.1 = k
      · simp [alookup, hp] at h
      · simp only [alookup, if_neg hp] at h
        simp [aset, hp, ih h]

theorem alookup_append_left {α : Type} {l1 : List (String × α)} (l2 : List (String × α))
    {k : String} {v : α} (h : alookup l1 k = some v) : alookup (l1 ++ l2) k = some v := by
  induction l1 with
  | nil => simp [alookup] at h
  | cons p rest ih =>
      by_cases hp : p.1 = k
      · simp only [alookup, if_pos hp, Option.some.injEq] at h
        simp [alookup, hp, h]
      · simp only [alookup, if_neg hp] at h
        simp [alookup, hp, ih h]

theorem alookup_append_right {α : Type} {l1 : List (String × α)} (l2 : List (String × α))
    {k : String} (h : alookup l1 k = none) : alookup (l1 ++ l2) k = alookup l2 k := by
  induction l1 with
  | nil => simp
  | cons p rest ih =>
      by_cases hp : p.1 = k
      · simp [alookup, hp] at h
      · simp only [alookup, if_neg hp] at h
        simp [alookup, hp, ih h]

/-! Characterization of `Annotation.add_attr` and the constructor loop. -/

theorem map_snd_pairup (l : List Attribute) :
    (l.map (fun x => (x.uid, x))).map (fun p => p.2) = l := by
  induction l with
  | nil => rfl
  | cons y ys ih => simp [ih]

theorem add_attr_err {a : Annotation} {attr : Attribute}
    (h : (alookup a.attrs_by_id attr.uid).isSome) :
    Annotation.add_attr a attr = (some PyError.valueError, a) := by
  unfold Annotation.add_attr
  rw [if_pos h]

theorem add_attr_ok_eq {a : Annotation} {attr : Attribute}
    (h : alookup a.attrs_by_id attr.uid = none) :
    Annotation.add_attr a attr =
      (none, { a with
               attrs_by_id := a.attrs_by_id ++ [(attr.uid, attr)],
               attr_ids_by_label := aset a.attr_ids_by_label attr.label
                 ((alookup a.attr_ids_by_label attr.label).getD [] ++ [attr.uid]) }) := by
  unfold Annotation.add_attr
  rw [if_neg (by simp [h])]
  simp only
  rw [aset_absent _ h]

theorem initLoop_frozen (attrs : List Attribute) (e : PyError) (a : Annotation) :
    attrs.foldl Annotation.initStep (some e, a) = (some e, a) := by
  induction attrs with
  | nil => rfl
  | cons x rest ih => simpa [ Annotation.initStep] using ih

theorem initLoop_clean (attrs : List Attribute) (a : Annotation)
    (habs : ∀ x ∈ attrs, alookup a.attrs_by_id x.uid = none)
    (hnd : (attrs.map (fun x => x.uid)).Nodup) :
    ∃ a', attrs.foldl Annotation.initStep (none, a) = (none, a') ∧
      a'.attrs_by_id = a.attrs_by_id ++ attrs.map (fun x => (x.uid, x)) ∧
      a'.uid = a.uid ∧ a'.label = a.label ∧ a'.keys = a.keys ∧ a'.metadata = a.metadata := by
  induction attrs generalizing a with
  | nil => exact ⟨a, rfl, by simp, rfl, rfl, rfl, rfl⟩
  | cons x rest ih =>
      have hx : alookup a.attrs_by_id x.uid = none := habs x (List.mem_cons_self _ _)
      have hstep : List.foldl Annotation.initStep (none, a) (x :: rest) =
          List.foldl Annotation.initStep ( Annotation.add_attr a x) rest := by
        simp [ Annotation.initStep]
      rw [hstep, add_attr_ok_eq hx]
      have hndx : x.uid ∉ rest.map (fun y => y.uid) := (List.nodup_cons.mp hnd).1
      have hndr : (rest.map (fun y => y.uid)).Nodup := (List.nodup_cons.mp hnd).2
      set a1 : Annotation :=
        { a with
          attrs_by_id := a.attrs_by_id ++ [(x.uid, x)],
          attr_ids_by_label := aset a.attr_ids_by_label x.label
            ((alookup a.attr_ids_by_label x.label).getD [] ++ [x.uid]) } with ha1
      have habs1 : ∀ y ∈ rest, alookup a1.attrs_by_id y.uid = none := by
        intro y hy
        have hya : alookup a.attrs_by_id y.uid = none := habs y (List.mem_cons_of_mem _ hy)
        have hxy : ¬ x.uid = y.uid := by
          intro hh
          exact hndx (hh ▸ List.mem_map_of_mem _ hy)
        show alookup (a.attrs_by_id ++ [(x.uid, x)]) y.uid = none
        rw [alookup_append_right _ hya]
        simp [alookup, hxy]
      rcases ih a1 habs1 hndr with ⟨a', hfold, hattrs, h1, h2, h3, h4⟩
      refine ⟨a', hfold, ?_, h1, h2, h3, h4⟩
      rw [hattrs]
      show a.attrs_by_id ++ [(x.uid, x)] ++ rest.map (fun y => (y.uid, y)) = _
      simp

theorem initLoop_err (attrs : List Attribute) (a : Annotation)
    (h : (∃ x ∈ attrs, (alookup a.attrs_by_id x.uid).isSome) ∨
         ¬ (attrs.map (fun x => x.uid)).Nodup) :
    (attrs.foldl Annotation.initStep (none, a)).1 = some PyError.valueError := by
  induction attrs generalizing a with
  | nil =>
      rcases h with ⟨x, hx, _⟩ | h
      · exact absurd hx (List.not_mem_nil x)
      · exact absurd List.nodup_nil h
  | cons x rest ih =>
      have hstep : List.foldl Annotation.initStep (none, a) (x :: rest) =
          List.foldl Annotation.initStep ( Annotation.add_attr a x) rest := by
        simp [ Annotation.initStep]
      rw [hstep]
      by_cases hx : (alookup a.attrs_by_id x.uid).isSome
      · rw [add_attr_err hx, initLoop_frozen]
      · have hxn : alookup a.attrs_by_id x.uid = none := by
          cases hl : alookup a.attrs_by_id x.uid with
          | none => rfl
          | some v => rw [hl] at hx; simp at hx
        rw [add_attr_ok_eq hxn]
        set a1 : Annotation :=
          { a with
            attrs_by_id := a.attrs_by_id ++ [(x.uid, x)],
            attr_ids_by_label := aset a.attr_ids_by_label x.label
              ((alookup a.attr_ids_by_label x.label).getD [] ++ [x.uid]) } with ha1
        apply ih a1
        rcases h with ⟨y, hy, hys⟩ | hd
        · rcases List.mem_cons.mp hy with hyx | hy2
          · exact absurd (hyx ▸ hys) hx
          · left
            refine ⟨y, hy2, ?_⟩
            cases hl : alookup a.attrs_by_id y.uid with
            | none => rw [hl] at hys; simp at hys
            | some v =>
                show (alookup (a.attrs_by_id ++ [(x.uid, x)]) y.uid).isSome
                rw [alookup_append_left _ hl]
                rfl
        · by_cases hmem : x.uid ∈ rest.map (fun y => y.uid)
          · rcases List.mem_map.mp hmem with ⟨y, hy, hyx⟩
            left
            refine ⟨y, hy, ?_⟩
            show (alookup (a.attrs_by_id ++ [(x.uid, x)]) y.uid).isSome
            rw [hyx, alookup_append_right _ hxn]
            simp [alookup]
          · right
            intro hnd2
            exact hd (List.nodup_cons.mpr ⟨hmem, hnd2⟩)

/-! Concrete fixtures used by witnesses. -/

def attrA : Attribute := ⟨"a1", "is_negated", none, []⟩

def attrB : Attribute := ⟨"a2", "is_family", some (PyValue.pyBool true), []⟩

def annX : Annotation := ⟨"u1", "sentence", ["k1"], [], [], []⟩

def annY : Annotation := ⟨"u2", "sentence", [], [], [], []⟩

def emptyDoc : Document := Document.init "d0" [] none

def sharedDoc : Document := Document.init "d1" [] (some ⟨[("u1", annX)]⟩)

/-- A membership state holding `annX` under its uid, written out directly
(the state the documented `add_annotation` semantics describes); exercises
the member paths of the getters and the mutation frame. -/
def docWithX : Document :=
  { id := "d0", store := ⟨[("u1", annX)]⟩, annotation_ids := ["u1"],
    annotation_ids_by_label := [("sentence", ["u1"])],
    annotation_ids_by_key := [("k1", ["u1"])], metadata := [] }

/-- A two-member state, `annX` then `annY`, written out directly. -/
def docXY : Document :=
  { id := "d0", store := ⟨[("u1", annX), ("u2", annY)]⟩,
    annotation_ids := ["u1", "u2"],
    annotation_ids_by_label := [("sentence", ["u1", "u2"])],
    annotation_ids_by_key := [("k1", ["u1"])], metadata := [] }

def annX1 : Annotation := (annX.add_attr attrA).2

/-! Claim theorems. -/

/-- C7: for every Attribute, `from_dict` applied to `to_dict` output yields
an Attribute whose `to_dict` output is structurally equal to the original
one: same uid, label, value and metadata entries (round-trip law). -/
theorem attribute_round_trip (x : Attribute) :
    Attribute.to_dict (Attribute.from_dict (Attribute.to_dict x)) = Attribute.to_dict x :=
  rfl

/-- C2: code bug in the source - `run_on_collection` calls the nonexistent
method `run_on_document` (the defined method is named `run_on_doc`), so the
attribute lookup raises AttributeError on the first document of any
nonempty collection and `run_on_doc` is never invoked, contrary to the
claim and to the method's own docstring. -/
theorem run_on_collection_attribute_error (p : DocPipeline) (c : Collection) :
    (c.documents = [] → DocPipeline.run_on_collection p c = Except.ok ()) ∧
    (c.documents ≠ [] →
      DocPipeline.run_on_collection p c = Except.error PyError.attributeError) := by
  constructor
  · intro h
    unfold DocPipeline.run_on_collection
    rw [h]
    rfl
  · intro h
    cases hc : c.documents with
    | nil => exact absurd hc h
    | cons d rest =>
        unfold DocPipeline.run_on_collection
        rw [hc]
        unfold DocPipeline.runOnCollectionLoop
        rw [if_neg (by decide)]

theorem run_on_collection_attribute_error_witness :
    DocPipeline.run_on_collection (DocPipeline.init [] []) ⟨[]⟩ = Except.ok () ∧
    DocPipeline.run_on_collection (DocPipeline.init [] []) ⟨[emptyDoc]⟩ =
      Except.error PyError.attributeError :=
  ⟨(run_on_collection_attribute_error (DocPipeline.init [] []) ⟨[]⟩).1 rfl,
   (run_on_collection_attribute_error (DocPipeline.init [] []) ⟨[emptyDoc]⟩).2 (by simp)⟩

/-- C9: `get_annotation_by_id` filters on membership: a uid outside the
membership set yields an absent value, not an error, even when the
(possibly shared) store holds an item under that uid; a member uid yields
exactly the item the store holds under it. -/
theorem get_annotation_by_id_spec (doc : Document) (u : String) :
    (u ∉ doc.annotation_ids → Document.get_annotation_by_id doc u = none) ∧
    (u ∈ doc.annotation_ids →
      Document.get_annotation_by_id doc u = DictStore.get_data_item doc.store u) := by
  constructor
  · intro h
    simp [Document.get_annotation_by_id, h]
  · intro h
    simp [Document.get_annotation_by_id, h]

theorem get_annotation_by_id_spec_witness :
    DictStore.get_data_item sharedDoc.store "u1" = some annX ∧
    Document.get_annotation_by_id sharedDoc "u1" = none ∧
    Document.get_annotation_by_id docWithX "u1" = DictStore.get_data_item docWithX.store "u1" :=
  ⟨by decide,
   (get_annotation_by_id_spec sharedDoc "u1").1 (by decide),
   (get_annotation_by_id_spec docWithX "u1").2 (by decide)⟩

/-- C4: a duplicate attribute uid makes `add_attr` fail with the state of
the annotation unchanged (in particular `get_attrs` is unaffected), the
call right after a successful attach of the same uid fails in that way, and
the attribute stored by a successful call is the unmodified argument
itself - the Attribute is never mutated. -/
theorem add_attr_duplicate_spec (a : Annotation) (attr : Attribute) :
    ((alookup a.attrs_by_id attr.uid).isSome →
      Annotation.add_attr a attr = (some PyError.valueError, a)) ∧
    (∀ a', Annotation.add_attr a attr = (none, a') →
      Annotation.add_attr a' attr = (some PyError.valueError, a') ∧
      Annotation.get_attrs a' = Annotation.get_attrs a ++ [attr] ∧
      alookup a'.attrs_by_id attr.uid = some attr) := by
  constructor
  · exact add_attr_err
  · intro a' h
    have hn : alookup a.attrs_by_id attr.uid = none := by
      by_cases hs : (alookup a.attrs_by_id attr.uid).isSome
      · rw [add_attr_err hs] at h
        exact absurd (congrArg Prod.fst h) (by simp)
      · cases hl : alookup a.attrs_by_id attr.uid with
        | none => rfl
        | some v => rw [hl] at hs; simp at hs
    rw [add_attr_ok_eq hn] at h
    have ha' := congrArg Prod.snd h
    simp only at ha'
    subst ha'
    have hlook : alookup (a.attrs_by_id ++ [(attr.uid, attr)]) attr.uid = some attr := by
      rw [alookup_append_right _ hn]
      simp [alookup]
    refine ⟨?_, ?_, hlook⟩
    · exact add_attr_err (by rw [hlook]; rfl)
    · show (a.attrs_by_id ++ [(attr.uid, attr)]).map (fun p => p.2) = _
      simp [ Annotation.get_attrs]

theorem add_attr_duplicate_spec_witness :
    Annotation.add_attr annX1 attrA = (some PyError.valueError, annX1) ∧
    Annotation.get_attrs annX1 = [attrA] := by
  have h := (add_attr_duplicate_spec annX attrA).2 annX1 (by decide)
  exact ⟨h.1, by decide⟩

/-- C10: the constructor attaches the given attributes in list order: with
pairwise distinct uids it succeeds and `get_attrs` returns exactly the
given list in order; a repeated uid makes it raise the duplicate-attribute
ValueError. -/
theorem annotation_init_spec (label uid : String) (keys : List String)
    (attrs : List Attribute) (md : List (String × PyValue)) :
    ((attrs.map (fun x => x.uid)).Nodup →
      ∃ a, Annotation.init label keys attrs uid md = (none, a) ∧
        Annotation.get_attrs a = attrs) ∧
    (¬ (attrs.map (fun x => x.uid)).Nodup →
      ( Annotation.init label keys attrs uid md).1 = some PyError.valueError) := by
  constructor
  · intro hnd
    unfold Annotation.init
    rcases initLoop_clean attrs ⟨uid, label, keys, [], [], md⟩ (fun x _ => rfl) hnd with
      ⟨a', hf, hattrs, _, _, _, _⟩
    refine ⟨a', hf, ?_⟩
    show a'.attrs_by_id.map (fun p => p.2) = attrs
    rw [hattrs]
    show (([] : List (String × Attribute)) ++ attrs.map (fun x => (x.uid, x))).map (fun p => p.2) = attrs
    rw [List.nil_append, map_snd_pairup]
  · intro hnd
    unfold Annotation.init
    exact initLoop_err attrs _ (Or.inr hnd)

theorem annotation_init_spec_witness :
    (∃ a, Annotation.init "sentence" [] [attrA, attrB] "u9" [] = (none, a) ∧
      Annotation.get_attrs a = [attrA, attrB]) ∧
    ( Annotation.init "sentence" [] [attrA, attrA] "u9" []).1 = some PyError.valueError :=
  ⟨(annotation_init_spec "sentence" "u9" [] [attrA, attrB] []).1 (by decide),
   (annotation_init_spec "sentence" "u9" [] [attrA, attrA] []).2 (by decide)⟩

/-! Store-aliasing lemmas for in-place mutation of a stored object. -/

theorem mutate_lookup_ne (items : List (String × Annotation)) (u : String)
    (f : Annotation → Annotation) (u2 : String) (h : u2 ≠ u) :
    alookup (items.map (fun p => if p.1 = u then (p.1, f p.2) else p)) u2 = alookup items u2 := by
  induction items with
  | nil => rfl
  | cons p rest ih =>
      by_cases hp : p.1 = u
      · have hpu : ¬ p.1 = u2 := by
          rw [hp]
          exact fun hh => h hh.symm
        simp only [List.map_cons, if_pos hp]
        show alookup ((p.1, f p.2) :: _) u2 = _
        simp [alookup, hpu, ih]
      · simp only [List.map_cons, if_neg hp]
        by_cases hq : p.1 = u2
        · simp [alookup, hq]
        · simp [alookup, hq, ih]

theorem mutate_lookup_self (items : List (String × Annotation)) (u : String)
    (f : Annotation → Annotation) {a : Annotation} (h : alookup items u = some a) :
    alookup (items.map (fun p => if p.1 = u then (p.1, f p.2) else p)) u = some (f a) := by
  induction items with
  | nil => simp [alookup] at h
  | cons p rest ih =>
      by_cases hp : p.1 = u
      · simp only [alookup, if_pos hp, Option.some.injEq] at h
        simp only [List.map_cons, if_pos hp]
        show alookup ((p.1, f p.2) :: _) u = _
        simp [alookup, hp, h]
      · simp only [alookup, if_neg hp] at h
        simp only [List.map_cons, if_neg hp]
        simp [alookup, hp, ih h]

/-- C6: mutating a member annotation's `keys` in place (`add_key` or
`keep_keys`) is observed through the document only as a rewrite of the
stored object under that uid: the membership set, the label index and the
key index are untouched, so the annotation is not retroactively added to,
removed from, or moved between any bucket; every other stored item is
untouched; `add_key` adds exactly the given key to the `keys` set and
`keep_keys` replaces `keys` by its intersection with the given set, each
leaving uid, label, attributes and metadata of the annotation unchanged. -/
theorem keys_mutation_frame (doc : Document) (u : String) (k : String) (ks : List String)
    (_hmem : u ∈ doc.annotation_ids) :
    (∀ f : Annotation → Annotation,
      (Document.mutate_ann doc u f).annotation_ids = doc.annotation_ids ∧
      (Document.mutate_ann doc u f).annotation_ids_by_label = doc.annotation_ids_by_label ∧
      (Document.mutate_ann doc u f).annotation_ids_by_key = doc.annotation_ids_by_key ∧
      (∀ u2, u2 ≠ u → DictStore.get_data_item (Document.mutate_ann doc u f).store u2 =
        DictStore.get_data_item doc.store u2) ∧
      (∀ a, DictStore.get_data_item doc.store u = some a →
        DictStore.get_data_item (Document.mutate_ann doc u f).store u = some (f a))) ∧
    (∀ a : Annotation,
      (∀ x, x ∈ ( Annotation.add_key a k).keys ↔ x ∈ a.keys ∨ x = k) ∧
      ( Annotation.add_key a k).uid = a.uid ∧
      ( Annotation.add_key a k).label = a.label ∧
      ( Annotation.add_key a k).attrs_by_id = a.attrs_by_id ∧
      ( Annotation.add_key a k).attr_ids_by_label = a.attr_ids_by_label ∧
      ( Annotation.add_key a k).metadata = a.metadata) ∧
    (∀ a : Annotation,
      (∀ x, x ∈ ( Annotation.keep_keys a ks).keys ↔ x ∈ a.keys ∧ x ∈ ks) ∧
      ( Annotation.keep_keys a ks).uid = a.uid ∧
      ( Annotation.keep_keys a ks).label = a.label ∧
      ( Annotation.keep_keys a ks).attrs_by_id = a.attrs_by_id ∧
      ( Annotation.keep_keys a ks).attr_ids_by_label = a.attr_ids_by_label ∧
      ( Annotation.keep_keys a ks).metadata = a.metadata) := by
  refine ⟨?_, ?_, ?_⟩
  · intro f
    refine ⟨rfl, rfl, rfl, ?_, ?_⟩
    · intro u2 h2
      exact mutate_lookup_ne doc.store.data_items u f u2 h2
    · intro a ha
      exact mutate_lookup_self doc.store.data_items u f ha
  · intro a
    refine ⟨?_, rfl, rfl, rfl, rfl, rfl⟩
    intro x
    show x ∈ (if k ∈ a.keys then a.keys else a.keys ++ [k]) ↔ _
    by_cases hk : k ∈ a.keys
    · rw [if_pos hk]
      constructor
      · exact fun hx => Or.inl hx
      · rintro (hx | hx)
        · exact hx
        · exact hx ▸ hk
    · rw [if_neg hk]
      simp [List.mem_append]
  · intro a
    refine ⟨?_, rfl, rfl, rfl, rfl, rfl⟩
    intro x
    show x ∈ a.keys.filter (fun y => decide (y ∈ ks)) ↔ _
    simp [List.mem_filter]

theorem keys_mutation_frame_witness :
    (Document.mutate_ann docWithX "u1" (fun a => Annotation.add_key a "k2")).annotation_ids_by_key =
      docWithX.annotation_ids_by_key ∧
    DictStore.get_data_item
        (Document.mutate_ann docWithX "u1" (fun a => Annotation.add_key a "k2")).store "u1" =
      some ( Annotation.add_key annX "k2") := by
  have h := keys_mutation_frame docWithX "u1" "k2" ["k1"] (by decide)
  exact ⟨(h.1 (fun a => Annotation.add_key a "k2")).2.2.1,
    (h.1 (fun a => Annotation.add_key a "k2")).2.2.2.2 annX (by decide)⟩

/-! The identifier read that opens `Document.add_annotation`. -/

theorem add_annotation_raises (doc : Document) (ann : Annotation) :
    Document.add_annotation doc ann = (some PyError.attributeError, doc) := by
  unfold Document.add_annotation
  rw [if_neg (by decide)]

/-- C1: code bug in the source - `add_annotation` begins by reading
`annotation.id`, an attribute the `Annotation` class never defines (its
identifier field is `uid`), so every call raises AttributeError before the
duplicate check and leaves the document unchanged; neither the claimed
duplicate-identity ValueError nor the claimed success path is reachable. -/
theorem add_annotation_attribute_error (doc : Document) (ann : Annotation) :
    Document.add_annotation doc ann = (some PyError.attributeError, doc) :=
  add_annotation_raises doc ann

/-- C5: code bug in the source - the claimed invariant conditions on
successful `add_annotation` calls and the code admits none: every call
raises AttributeError reading the undefined `annotation.id`, and the
failed call leaves the membership set, the label index and the key index
untouched, so no reachable document state ever satisfies the claim's
premise. -/
theorem index_consistency_unreachable (doc : Document) (ann : Annotation) :
    Document.add_annotation doc ann = (some PyError.attributeError, doc) ∧
    ( Document.add_annotation doc ann).2.annotation_ids = doc.annotation_ids ∧
    ( Document.add_annotation doc ann).2.annotation_ids_by_label = doc.annotation_ids_by_label ∧
    ( Document.add_annotation doc ann).2.annotation_ids_by_key = doc.annotation_ids_by_key := by
  have h := add_annotation_raises doc ann
  exact ⟨h, by rw [h], by rw [h], by rw [h]⟩

/-- C3: code bug in the source - the getters can never be exercised on a
populated document: every `add_annotation` call raises AttributeError
(reading the undefined `annotation.id`) and leaves the document unchanged,
so the only reachable document states are freshly constructed ones, on
which lookups by any label or key and the enumeration of the empty
membership set all return the empty list; the claimed insertion order over
successfully added annotations is unrealizable in the source. -/
theorem document_getters_unreachable :
    (∀ doc ann, Document.add_annotation doc ann = (some PyError.attributeError, doc)) ∧
    (∀ doc_id md os l, Document.get_annotations_by_label (Document.init doc_id md os) l = []) ∧
    (∀ doc_id md os k, Document.get_annotations_by_key (Document.init doc_id md os) k = []) ∧
    (∀ doc_id md os, Document.get_annotations (Document.init doc_id md os) [] = []) := by
  refine ⟨fun doc ann => add_annotation_raises doc ann, ?_, ?_, ?_⟩
  · intro doc_id md os l
    rfl
  · intro doc_id md os k
    rfl
  · intro doc_id md os
    rfl

/-! Characterization of the `run_on_doc` gathering loop. -/

theorem aset_append_singleton {α : Type} {acc : List (String × α)} {k : String}
    (v w : α) (hk : alookup acc k = none) :
    aset (acc ++ [(k, v)]) k w = acc ++ [(k, w)] := by
  induction acc with
  | nil => simp [aset]
  | cons p rest ih =>
      by_cases hp : p.1 = k
      · simp [alookup, hp] at hk
      · simp only [alookup, if_neg hp] at hk
        simp [aset, hp, ih hk]

theorem gather_fold_present (doc : Document) (k : String) (labels : List String)
    (acc : List (String × List (Option Annotation))) (v : List (Option Annotation))
    (hk : alookup acc k = none) :
    labels.foldl (DocPipeline.gatherStep doc k) (acc ++ [(k, v)]) =
      acc ++ [(k, v ++ (labels.map (fun l => Document.get_annotations_by_label doc l)).flatten)] := by
  induction labels generalizing v with
  | nil => simp
  | cons l ls ih =>
      have hlk : alookup (acc ++ [(k, v)]) k = some v := by
        rw [alookup_append_right _ hk]
        simp [alookup]
      have hstep : DocPipeline.gatherStep doc k (acc ++ [(k, v)]) l =
          acc ++ [(k, v ++ Document.get_annotations_by_label doc l)] := by
        unfold DocPipeline.gatherStep
        rw [hlk]
        exact aset_append_singleton _ _ hk
      show List.foldl (DocPipeline.gatherStep doc k)
        (DocPipeline.gatherStep doc k (acc ++ [(k, v)]) l) ls = _
      rw [hstep, ih]
      simp

theorem gather_fold_absent (doc : Document) (k : String) (labels : List String)
    (acc : List (String × List (Option Annotation)))
    (hk : alookup acc k = none) :
    labels.foldl (DocPipeline.gatherStep doc k) acc =
      if labels.isEmpty then acc
      else acc ++ [(k, (labels.map (fun l => Document.get_annotations_by_label doc l)).flatten)] := by
  cases labels with
  | nil => rfl
  | cons l ls =>
      have hstep : DocPipeline.gatherStep doc k acc l =
          acc ++ [(k, Document.get_annotations_by_label doc l)] := by
        unfold DocPipeline.gatherStep
        rw [hk]
      show List.foldl (DocPipeline.gatherStep doc k)
        (DocPipeline.gatherStep doc k acc l) ls = _
      rw [hstep, gather_fold_present doc k ls acc _ hk]
      simp

theorem gather_spec (doc : Document) (lbik : List (String × List String))
    (acc : List (String × List (Option Annotation)))
    (hnd : (lbik.map (fun p => p.1)).Nodup)
    (habs : ∀ kv ∈ lbik, alookup acc kv.1 = none) :
    lbik.foldl (fun acc2 kv => kv.2.foldl (DocPipeline.gatherStep doc kv.1) acc2) acc =
      acc ++ (lbik.filter (fun kv => !kv.2.isEmpty)).map
        (fun kv => (kv.1, (kv.2.map (fun l => Document.get_annotations_by_label doc l)).flatten)) := by
  induction lbik generalizing acc with
  | nil => simp
  | cons kv rest ih =>
      have hk := habs kv (List.mem_cons_self _ _)
      have hndk : kv.1 ∉ rest.map (fun p => p.1) := (List.nodup_cons.mp hnd).1
      have hndr : (rest.map (fun p => p.1)).Nodup := (List.nodup_cons.mp hnd).2
      show List.foldl _ (kv.2.foldl (DocPipeline.gatherStep doc kv.1) acc) rest = _
      rw [gather_fold_absent doc kv.1 kv.2 acc hk]
      by_cases he : kv.2.isEmpty
      · rw [if_pos he]
        rw [ih acc hndr (fun kw hw => habs kw (List.mem_cons_of_mem _ hw))]
        have hfe : List.filter (fun kw => !kw.2.isEmpty) (kv :: rest) =
            List.filter (fun kw => !kw.2.isEmpty) rest := by
          rw [List.filter_cons]
          simp [he]
        rw [hfe]
      · rw [if_neg he]
        have habs2 : ∀ kw ∈ rest,
            alookup (acc ++ [(kv.1, (kv.2.map
              (fun l => Document.get_annotations_by_label doc l)).flatten)]) kw.1 = none := by
          intro kw hw
          rw [alookup_append_right _ (habs kw (List.mem_cons_of_mem _ hw))]
          have : ¬ kv.1 = kw.1 := by
            intro hh
            exact hndk (hh ▸ List.mem_map_of_mem _ hw)
          simp [alookup, this]
        rw [ih _ hndr habs2]
        have hfc : List.filter (fun kw => !kw.2.isEmpty) (kv :: rest) =
            kv :: List.filter (fun kw => !kw.2.isEmpty) rest := by
          rw [List.filter_cons]
          simp [he]
        rw [hfc]
        simp

/-- C8 (amended): the internal Pipeline declares exactly the mapping's keys
as input keys and an empty output-key list; `run_on_doc` binds the document
and hands `Pipeline.process` one positional argument per declared input key
whose label list is nonempty, in input-key order, each argument being the
concatenation, in label-list order, of the document's label buckets with
their internal order preserved; a key with an empty label list contributes
no positional argument at all. -/
theorem run_on_doc_spec (steps : List PipelineStep) (lbik : List (String × List String))
    (doc : Document) (hnd : (lbik.map (fun p => p.1)).Nodup) :
    (DocPipeline.init steps lbik).pipeline.input_keys = lbik.map (fun p => p.1) ∧
    (DocPipeline.init steps lbik).pipeline.output_keys = [] ∧
    DocPipeline.run_on_doc (DocPipeline.init steps lbik) doc =
      (Pipeline.set_doc (DocPipeline.init steps lbik).pipeline doc,
       (lbik.filter (fun kv => !kv.2.isEmpty)).map
         (fun kv => (kv.2.map (fun l => Document.get_annotations_by_label doc l)).flatten)) := by
  refine ⟨rfl, rfl, ?_⟩
  unfold DocPipeline.run_on_doc
  have hg : DocPipeline.gather doc lbik =
      (lbik.filter (fun kv => !kv.2.isEmpty)).map
        (fun kv => (kv.1, (kv.2.map (fun l => Document.get_annotations_by_label doc l)).flatten)) := by
    unfold DocPipeline.gather
    rw [gather_spec doc lbik [] hnd (fun kv _ => rfl)]
    rfl
  show (Pipeline.set_doc (DocPipeline.init steps lbik).pipeline doc,
      (DocPipeline.gather doc lbik).map (fun q => q.2)) = _
  rw [hg, List.map_map]
  rfl

theorem run_on_doc_spec_witness :
    (DocPipeline.run_on_doc (DocPipeline.init [] [("a", ["sentence"]), ("b", [])]) docXY).2 =
      [[some annX, some annY]] := by
  have h := run_on_doc_spec [] [("a", ["sentence"]), ("b", [])] docXY (by decide)
  rw [h.2.2]
  decide

def dpEmptyKey : DocPipeline := DocPipeline.init [] [("a", [])]

/-- C8 counterexample: a declared input key with an empty label list
contributes no positional argument, so the pipeline declares one input key
while `process` receives an empty argument list, not the one (empty) list
per declared input key that the claim requires. -/
theorem run_on_doc_empty_key_counterexample :
    dpEmptyKey.pipeline.input_keys = ["a"] ∧
    (DocPipeline.run_on_doc dpEmptyKey emptyDoc).2 = [] ∧
    ([] : List (List (Option Annotation))) ≠ [[]] := by
  refine ⟨rfl, by decide, by decide⟩

end Medkit
